import Mathlib

/-!
Verification of `scripts/generate_synthetic_training.py` (arananet/edgeneuro).

Shallow embedding conventions:
* Python's insertion-ordered dict `AGENTS` becomes an association list.
* The ambient random generator becomes an explicit state: a stream of
  natural-number draws (used by `random.choice` and `random.shuffle`, taken
  modulo the relevant bound) and a stream of rationals in the role of
  `random.random()` (floats modelled exactly as rationals; the only use is
  the comparison against the literal 0.1).
* Python module globals (`AGENTS`, `TEMPLATES`) are threaded through the
  program state so that (non-)mutation of them is expressible.
* `random.choice` on an empty sequence raises `IndexError`; fallibility is
  modelled by `Option`.
* `str.format` with the single `{intent}` placeholder is modelled by
  fuel-bounded substring replacement on the character list; `str.lower` by
  `Char.toLower` (all reachable strings are ASCII).
* Writing the output file is modelled by producing the file's content as a
  string; actual I/O (and its possible failure) stays outside the embedding.
-/

/-- The agent catalog, line 6 of the source: dict from agent id to intents. -/
def AGENTS : List (String × List String) :=
  [("agent_hr", ["payroll issue", "holiday request", "benefits question", "onboarding"]),
   ("agent_it", ["vpn access", "password reset", "laptop repair", "software license"]),
   ("agent_sales", ["customer lead", "sales report", "crm update", "contract renewal"]),
   ("agent_data", ["sql query", "dashboard access", "data warehouse", "snowflake"])]

/-- The template set, line 13 of the source. -/
def TEMPLATES : List String :=
  ["I need help with {intent}",
   "Can you check my {intent}?",
   "Who handles {intent}?",
   "It seems my {intent} is broken",
   "Quick question about {intent}"]

/-- The constant `instruction` field of every record (line 34). -/
def INSTRUCTION : String :=
  "Route the user query to the correct internal agent. Output JSON."

/-- `SAMPLES_PER_INTENT = 50`, line 48 of the source. -/
def SAMPLES_PER_INTENT : Nat := 50

/-- Program state: the module globals plus the random source.
`nats` feeds `random.choice` / `random.shuffle` index draws, `floats` feeds
`random.random()`, `pos` is the next unread position of both streams. -/
structure PState where
  agents : List (String × List String)
  templates : List String
  nats : Nat → Nat
  floats : Nat → ℚ
  pos : Nat

/-- Consume one natural-number draw from the random source. -/
def nextNat (st : PState) : Nat × PState :=
  (st.nats st.pos, { st with pos := st.pos + 1 })

/-- Consume one `random.random()` draw from the random source. -/
def nextFloat (st : PState) : ℚ × PState :=
  (st.floats st.pos, { st with pos := st.pos + 1 })

/-- Fuel-bounded replacement of every occurrence of `pat` in a character
list (the fuel makes the definition structurally recursive, hence
kernel-reducible; fuel = length of the subject always suffices). -/
def replaceAux (pat sub : List Char) : Nat → List Char → List Char
  | 0, s => s
  | _ + 1, [] => []
  | fuel + 1, c :: cs =>
    if pat.isPrefixOf (c :: cs) ∧ pat ≠ [] then
      sub ++ replaceAux pat sub fuel (cs.drop (pat.length - 1))
    else
      c :: replaceAux pat sub fuel cs

/-- Python `template.format(intent=intent)`: every `{intent}` placeholder
(each template holds exactly one) replaced by the intent phrase. -/
def pyFormat (template intent : String) : String :=
  ⟨replaceAux "{intent}".data intent.data template.data.length template.data⟩

/-- Python `str.lower` (ASCII; all reachable strings are ASCII). -/
def lowerStr (s : String) : String :=
  ⟨s.data.map Char.toLower⟩

/-- The structure serialized into a record's `output` field (lines 36-40).
`confidence` is the float 1.0, modelled exactly as a rational. -/
structure Payload where
  target : String
  confidence : ℚ
  reason : String
deriving DecidableEq, Repr

/-- One training record (lines 33-41). The source stores `output` as the
JSON string `json.dumps` produces; we keep the structured payload and
serialize it only when writing the file, which carries the same data. -/
structure Sample where
  instruction : String
  input : String
  output : Payload
deriving DecidableEq, Repr

/-- `generate_sample(agent, intent)`, lines 21-41 of the source.
`random.choice(TEMPLATES)` draws an index (empty sequence would raise,
hence `Option`); then `random.random() < 0.1` decides lowercasing. -/
def generate_sample (agent intent : String) (st : PState) : Option (Sample × PState) :=
  match st.templates with
  | [] => none
  | t₀ :: ts =>
    let (d, st₁) := nextNat st
    let t := (t₀ :: ts).get ⟨d % (ts.length + 1), Nat.mod_lt _ (Nat.succ_pos _)⟩
    let (q, st₂) := nextFloat st₁
    let utter := pyFormat t intent
    let utter := if q < 1/10 then lowerStr utter else utter
    some ({ instruction := INSTRUCTION,
            input := utter,
            output := { target := agent, confidence := 1,
                        reason := "Matched intent: " ++ intent } }, st₂)

/-- The innermost loop of `main` (line 52): `SAMPLES_PER_INTENT` repetitions
of `generate_sample` for one (agent, intent) pair, in order. -/
def repSamples (agent intent : String) : Nat → PState → Option (List Sample × PState)
  | 0, st => some ([], st)
  | n + 1, st =>
    match generate_sample agent intent st with
    | none => none
    | some (r, st₁) =>
      match repSamples agent intent n st₁ with
      | none => none
      | some (rs, st₂) => some (r :: rs, st₂)

/-- The middle loop of `main` (line 51): over one agent's intent list. -/
def intentLoop (agent : String) : List String → PState → Option (List Sample × PState)
  | [], st => some ([], st)
  | i :: is, st =>
    match repSamples agent i SAMPLES_PER_INTENT st with
    | none => none
    | some (rs₁, st₁) =>
      match intentLoop agent is st₁ with
      | none => none
      | some (rs₂, st₂) => some (rs₁ ++ rs₂, st₂)

/-- The outer loop of `main` (line 50): over the agent catalog in order. -/
def agentLoop : List (String × List String) → PState → Option (List Sample × PState)
  | [], st => some ([], st)
  | (a, is) :: rest, st =>
    match intentLoop a is st with
    | none => none
    | some (rs₁, st₁) =>
      match agentLoop rest st₁ with
      | none => none
      | some (rs₂, st₂) => some (rs₁ ++ rs₂, st₂)

/-- Swap the elements at positions `i` and `j` (identity out of bounds). -/
def listSwap (l : List α) (i j : Nat) : List α :=
  match l[i]?, l[j]? with
  | some a, some b => (l.set i b).set j a
  | _, _ => l

/-- Fisher-Yates core of `random.shuffle` (CPython: for i from len-1 down
to 1, swap position i with a drawn position j ≤ i). The drawn natural is
reduced modulo i+1, mirroring a uniform draw on [0, i]. -/
def shuffleAux : Nat → List α → PState → List α × PState
  | 0, l, st => (l, st)
  | i + 1, l, st =>
    let (d, st₁) := nextNat st
    shuffleAux i (listSwap l (i + 1) (d % (i + 2))) st₁

/-- `random.shuffle(dataset)`, line 56 of the source. -/
def pyShuffle (l : List α) (st : PState) : List α × PState :=
  shuffleAux (l.length - 1) l st

/-- The generation-and-shuffle part of the source's `main` (lines 43-56):
build the dataset in catalog order, then shuffle it. (Lean reserves the
name `main` for an IO entry point, hence `mainRun`.) -/
def mainRun (st : PState) : Option (List Sample × PState) :=
  match agentLoop st.agents st with
  | none => none
  | some (ds, st₁) =>
    let (ds', st₂) := pyShuffle ds st₁
    some (ds', st₂)

/-- Process start: globals initialized to their literals, random source
given from outside, stream position 0. -/
def initState (nats : Nat → Nat) (floats : Nat → ℚ) : PState :=
  { agents := AGENTS, templates := TEMPLATES, nats := nats, floats := floats, pos := 0 }

/-- Lower-case hexadecimal digit, as Python's `\uXXXX` escapes use. -/
def hexDigit (n : Nat) : Char :=
  "0123456789abcdef".data.getD n '0'

/-- `json.dumps` escaping of one character (CPython's ESCAPE_DCT plus
`\uXXXX` for other control characters; astral-plane characters, absent
from every reachable string, are simplified to one `\uXXXX` unit). -/
def jsonEscapeChar (c : Char) : List Char :=
  if c = '"' then ['\\', '"']
  else if c = '\\' then ['\\', '\\']
  else if c = '\n' then ['\\', 'n']
  else if c = '\t' then ['\\', 't']
  else if c = '\r' then ['\\', 'r']
  else if c = '\x08' then ['\\', 'b']
  else if c = '\x0c' then ['\\', 'f']
  else if c.toNat < 32 ∨ 126 < c.toNat then
    ['\\', 'u', hexDigit (c.toNat / 4096 % 16), hexDigit (c.toNat / 256 % 16),
     hexDigit (c.toNat / 16 % 16), hexDigit (c.toNat % 16)]
  else [c]

/-- `json.dumps` of a string value: quoted, characters escaped. -/
def jsonStr (s : String) : String :=
  ⟨'"' :: (s.data.flatMap jsonEscapeChar ++ ['"'])⟩

/-- `json.dumps` of the (always integral) confidence float: Python prints
the float 1.0 as `1.0`. -/
def dumpsQ (q : ℚ) : String :=
  if q.den = 1 then toString q.num ++ ".0" else toString q.num ++ "/" ++ toString q.den

/-- `json.dumps({"target": ..., "confidence": ..., "reason": ...})` as on
line 36 of the source (default separators `", "` and `": "`). -/
def dumpsOutput (p : Payload) : String :=
  "\x7b\"target\": " ++ jsonStr p.target ++ ", \"confidence\": " ++ dumpsQ p.confidence ++
    ", \"reason\": " ++ jsonStr p.reason ++ "\x7d"

/-- `json.dumps(entry)` for one record (line 61): the `output` value is
itself a JSON string, so it is escaped like any other string value. -/
def dumpsRecord (r : Sample) : String :=
  "\x7b\"instruction\": " ++ jsonStr r.instruction ++ ", \"input\": " ++ jsonStr r.input ++
    ", \"output\": " ++ jsonStr (dumpsOutput r.output) ++ "\x7d"

/-- Sequential concatenation, mirroring the write loop's successive
`f.write` calls. -/
def joinAll : List String → String
  | [] => ""
  | s :: rest => s ++ joinAll rest

/-- Lines 58-63 of the source: the content written to
`edgeneuro_training_data.jsonl` (one `json.dumps` line per record, each
followed by a newline), paired with the record count the program reports
(`len(dataset)`, line 63). -/
def persist (dataset : List Sample) : String × Nat :=
  (joinAll (dataset.map (fun r => dumpsRecord r ++ "\n")), dataset.length)

/-- Split a character list at newline characters (the reader's view of a
newline-delimited file; a trailing newline closes the last line). -/
def splitNl : List Char → List (List Char)
  | [] => []
  | c :: cs =>
    if c = '\n' then [] :: splitNl cs
    else
      match splitNl cs with
      | [] => [[c]]
      | l :: ls => (c :: l) :: ls

/-- `pat` occurs as a contiguous substring. -/
def containsSub (pat : List Char) : List Char → Bool
  | [] => pat.isEmpty
  | c :: cs => pat.isPrefixOf (c :: cs) || containsSub pat cs

/-- The record predicate distinguishing one (agent, intent) pair: its
constant output payload. -/
def matchPair (agent intent : String) (r : Sample) : Bool :=
  r.output.target = agent ∧ r.output.confidence = 1 ∧
    r.output.reason = "Matched intent: " ++ intent

/-- What `generate_sample agent intent` guarantees of its record when the
templates global holds its initial value. -/
def SampleOK (agent intent : String) (r : Sample) : Prop :=
  r.instruction = INSTRUCTION ∧
  r.output = { target := agent, confidence := 1, reason := "Matched intent: " ++ intent } ∧
  ∃ t ∈ TEMPLATES, r.input = pyFormat t intent ∨ r.input = lowerStr (pyFormat t intent)

/-! ### Behaviour of `generate_sample` -/

theorem generate_sample_spec (a i : String) (st : PState) (h : st.templates = TEMPLATES) :
    generate_sample a i st = some
      ({ instruction := INSTRUCTION,
         input :=
           if st.floats (st.pos + 1) < 1/10 then
             lowerStr (pyFormat (TEMPLATES.get ⟨st.nats st.pos % 5, Nat.mod_lt _ (by decide)⟩) i)
           else
             pyFormat (TEMPLATES.get ⟨st.nats st.pos % 5, Nat.mod_lt _ (by decide)⟩) i,
         output := { target := a, confidence := 1, reason := "Matched intent: " ++ i } },
       { st with pos := st.pos + 2 }) := by
  obtain ⟨ag, tp, nt, fl, p⟩ := st
  replace h : tp = TEMPLATES := h
  subst h
  rfl

theorem generate_sample_shape (a i : String) (st : PState) (h : st.templates = TEMPLATES) :
    ∃ r, generate_sample a i st = some (r, { st with pos := st.pos + 2 }) ∧ SampleOK a i r := by
  refine ⟨_, generate_sample_spec a i st h, rfl, rfl, ?_⟩
  refine ⟨TEMPLATES.get ⟨st.nats st.pos % 5, Nat.mod_lt _ (by decide)⟩,
    List.get_mem _ _ _, ?_⟩
  by_cases hq : st.floats (st.pos + 1) < 1/10
  · exact Or.inr (by simp only [hq, if_true])
  · exact Or.inl (by simp only [hq, if_false])

/-! ### The shuffle is a permutation -/

theorem cons_set_perm (x : α) :
    ∀ (xs : List α) (m : Nat) (b : α), xs[m]? = some b →
      (b :: xs.set m x).Perm (x :: xs) := by
  intro xs
  induction xs with
  | nil => intro m b hb; simp at hb
  | cons y ys ih =>
    intro m b hb
    cases m with
    | zero =>
      simp only [List.getElem?_cons_zero, Option.some.injEq] at hb
      subst hb
      exact List.Perm.swap _ _ _
    | succ k =>
      simp only [List.getElem?_cons_succ] at hb
      exact (List.Perm.swap y b (ys.set k x)).trans
        (((ih k b hb).cons y).trans (List.Perm.swap x y ys))

theorem set_set_perm :
    ∀ (l : List α) (i j : Nat) (a b : α), l[i]? = some a → l[j]? = some b →
      ((l.set i b).set j a).Perm l := by
  intro l
  induction l with
  | nil => intro i j a b ha _; simp at ha
  | cons x xs ih =>
    intro i j a b ha hb
    cases i with
    | zero =>
      simp only [List.getElem?_cons_zero, Option.some.injEq] at ha
      subst ha
      cases j with
      | zero =>
        simp only [List.getElem?_cons_zero, Option.some.injEq] at hb
        subst hb
        simp
      | succ m =>
        simp only [List.getElem?_cons_succ] at hb
        simpa using cons_set_perm x xs m b hb
    | succ n =>
      simp only [List.getElem?_cons_succ] at ha
      cases j with
      | zero =>
        simp only [List.getElem?_cons_zero, Option.some.injEq] at hb
        subst hb
        simpa using cons_set_perm x xs n a ha
      | succ m =>
        simp only [List.getElem?_cons_succ] at hb
        simpa using (ih n m a b ha hb).cons x

theorem listSwap_perm (l : List α) (i j : Nat) : (listSwap l i j).Perm l := by
  unfold listSwap
  cases h₁ : l[i]? with
  | none => exact List.Perm.refl l
  | some a =>
    cases h₂ : l[j]? with
    | none => exact List.Perm.refl l
    | some b => exact set_set_perm l i j a b h₁ h₂

theorem shuffleAux_perm : ∀ (n : Nat) (l : List α) (st : PState),
    ((shuffleAux n l st).1).Perm l := by
  intro n
  induction n with
  | zero => intro l st; exact List.Perm.refl l
  | succ i ih =>
    intro l st
    exact (ih _ _).trans (listSwap_perm l (i + 1) _)

theorem shuffleAux_env : ∀ (n : Nat) (l : List α) (st : PState),
    (shuffleAux n l st).2.agents = st.agents ∧
    (shuffleAux n l st).2.templates = st.templates := by
  intro n
  induction n with
  | zero => intro l st; exact ⟨rfl, rfl⟩
  | succ i ih => intro l st; exact ih _ _

theorem pyShuffle_perm (l : List α) (st : PState) : ((pyShuffle l st).1).Perm l :=
  shuffleAux_perm _ l st

/-! ### The generation loops -/

theorem string_append_cancel {p s t : String} (h : p ++ s = p ++ t) : s = t := by
  apply String.ext
  have hd : p.data ++ s.data = p.data ++ t.data := by
    rw [← String.data_append, ← String.data_append, h]
  exact List.append_cancel_left hd

theorem repSamples_spec (a i : String) :
    ∀ (n : Nat) (st : PState), st.templates = TEMPLATES →
      ∃ rs st', repSamples a i n st = some (rs, st') ∧
        st'.agents = st.agents ∧ st'.templates = st.templates ∧
        st'.nats = st.nats ∧ st'.floats = st.floats ∧
        rs.length = n ∧ ∀ r ∈ rs, SampleOK a i r := by
  intro n
  induction n with
  | zero =>
    intro st _
    exact ⟨[], st, rfl, rfl, rfl, rfl, rfl, rfl, by simp⟩
  | succ m ih =>
    intro st h
    obtain ⟨r, hr, hok⟩ := generate_sample_shape a i st h
    obtain ⟨rs, st', hrs, e₁, e₂, e₃, e₄, hlen, hall⟩ := ih { st with pos := st.pos + 2 } h
    refine ⟨r :: rs, st', ?_, e₁, e₂, e₃, e₄, by simp [hlen], ?_⟩
    · simp only [repSamples, hr, hrs]
    · intro x hx
      rcases List.mem_cons.mp hx with hx | hx
      · exact hx ▸ hok
      · exact hall x hx

theorem countP_matchPair_of_ok (a i a' i' : String) (rs : List Sample)
    (hall : ∀ r ∈ rs, SampleOK a i r) :
    rs.countP (matchPair a' i') = if a' = a ∧ i' = i then rs.length else 0 := by
  by_cases hc : a' = a ∧ i' = i
  · rw [if_pos hc]
    obtain ⟨rfl, rfl⟩ := hc
    apply List.countP_eq_length.mpr
    intro r hr
    obtain ⟨_, hout, _⟩ := hall r hr
    simp [matchPair, hout]
  · rw [if_neg hc]
    apply List.countP_eq_zero.mpr
    intro r hr hm
    obtain ⟨_, hout, _⟩ := hall r hr
    apply hc
    simp only [matchPair, hout, decide_eq_true_eq] at hm
    exact ⟨hm.1.symm, (string_append_cancel hm.2.2).symm⟩

theorem intentLoop_spec (a : String) :
    ∀ (is : List String) (st : PState), st.templates = TEMPLATES →
      ∃ rs st', intentLoop a is st = some (rs, st') ∧
        st'.agents = st.agents ∧ st'.templates = st.templates ∧
        st'.nats = st.nats ∧ st'.floats = st.floats ∧
        rs.length = is.length * SAMPLES_PER_INTENT ∧
        (∀ r ∈ rs, ∃ i ∈ is, SampleOK a i r) ∧
        ∀ a' i', rs.countP (matchPair a' i') =
          if a' = a then SAMPLES_PER_INTENT * is.countP (fun j => i' = j) else 0 := by
  intro is
  induction is with
  | nil =>
    intro st _
    exact ⟨[], st, rfl, rfl, rfl, rfl, rfl, by simp, by simp, by simp⟩
  | cons i rest ih =>
    intro st h
    obtain ⟨rs₁, st₁, h₁, a₁, t₁, n₁, f₁, len₁, ok₁⟩ :=
      repSamples_spec a i SAMPLES_PER_INTENT st h
    obtain ⟨rs₂, st₂, h₂, a₂, t₂, n₂, f₂, len₂, mem₂, cnt₂⟩ :=
      ih st₁ (t₁.trans h)
    refine ⟨rs₁ ++ rs₂, st₂, ?_, a₂.trans a₁, t₂.trans t₁, n₂.trans n₁, f₂.trans f₁,
      ?_, ?_, ?_⟩
    · simp only [intentLoop, h₁, h₂]
    · simp only [List.length_append, len₁, len₂, List.length_cons]
      simp only [SAMPLES_PER_INTENT]
      omega
    · intro r hr
      rcases List.mem_append.mp hr with hr | hr
      · exact ⟨i, List.mem_cons_self i rest, ok₁ r hr⟩
      · obtain ⟨j, hj, hok⟩ := mem₂ r hr
        exact ⟨j, List.mem_cons_of_mem i hj, hok⟩
    · intro a' i'
      rw [List.countP_append, cnt₂ a' i', countP_matchPair_of_ok a i a' i' rs₁ ok₁, len₁,
        List.countP_cons]
      simp only [SAMPLES_PER_INTENT, decide_eq_true_eq]
      split_ifs <;> first | omega | tauto

theorem agentLoop_spec :
    ∀ (agents : List (String × List String)) (st : PState), st.templates = TEMPLATES →
      ∃ rs st', agentLoop agents st = some (rs, st') ∧
        st'.agents = st.agents ∧ st'.templates = st.templates ∧
        st'.nats = st.nats ∧ st'.floats = st.floats ∧
        rs.length = (agents.map (fun p => p.2.length * SAMPLES_PER_INTENT)).sum ∧
        (∀ r ∈ rs, ∃ p ∈ agents, ∃ i ∈ p.2, SampleOK p.1 i r) ∧
        ∀ a' i', rs.countP (matchPair a' i') =
          (agents.map (fun p =>
            if a' = p.1 then SAMPLES_PER_INTENT * p.2.countP (fun j => i' = j) else 0)).sum := by
  intro agents
  induction agents with
  | nil =>
    intro st _
    exact ⟨[], st, rfl, rfl, rfl, rfl, rfl, by simp, by simp, by simp⟩
  | cons p rest ih =>
    obtain ⟨a, is⟩ := p
    intro st h
    obtain ⟨rs₁, st₁, h₁, a₁, t₁, n₁, f₁, len₁, mem₁, cnt₁⟩ := intentLoop_spec a is st h
    obtain ⟨rs₂, st₂, h₂, a₂, t₂, n₂, f₂, len₂, mem₂, cnt₂⟩ := ih st₁ (t₁.trans h)
    refine ⟨rs₁ ++ rs₂, st₂, ?_, a₂.trans a₁, t₂.trans t₁, n₂.trans n₁, f₂.trans f₁,
      ?_, ?_, ?_⟩
    · simp only [agentLoop, h₁, h₂]
    · simp [len₁, len₂]
    · intro r hr
      rcases List.mem_append.mp hr with hr | hr
      · obtain ⟨i, hi, hok⟩ := mem₁ r hr
        exact ⟨(a, is), List.mem_cons_self _ rest, i, hi, hok⟩
      · obtain ⟨q, hq, i, hi, hok⟩ := mem₂ r hr
        exact ⟨q, List.mem_cons_of_mem _ hq, i, hi, hok⟩
    · intro a' i'
      simp only [List.countP_append, cnt₁ a' i', cnt₂ a' i', List.map_cons, List.sum_cons]

theorem mainRun_eq (nats : Nat → Nat) (floats : Nat → ℚ) {acc : List Sample} {st₁ : PState}
    (h₁ : agentLoop AGENTS (initState nats floats) = some (acc, st₁)) :
    mainRun (initState nats floats) =
      some ((pyShuffle acc st₁).1, (pyShuffle acc st₁).2) := by
  unfold mainRun
  have ha : (initState nats floats).agents = AGENTS := rfl
  rw [ha, h₁]

theorem lookup_AGENTS (a : String) (il : List String) (h : (a, il) ∈ AGENTS) :
    AGENTS.lookup a = some il := by
  simp only [AGENTS, List.mem_cons, List.not_mem_nil, or_false, Prod.mk.injEq] at h
  rcases h with ⟨rfl, rfl⟩ | ⟨rfl, rfl⟩ | ⟨rfl, rfl⟩ | ⟨rfl, rfl⟩ <;> decide

/-! ### Serialization -/

theorem getD_mem_or (l : List Char) : ∀ (n : Nat) (d : Char), l.getD n d ∈ l ∨ l.getD n d = d := by
  induction l with
  | nil => intro n d; right; cases n <;> rfl
  | cons c cs ih =>
    intro n d
    cases n with
    | zero => left; exact List.mem_cons_self _ _
    | succ m =>
      rcases ih m d with hm | hd
      · exact Or.inl (List.mem_cons_of_mem _ hm)
      · exact Or.inr hd

theorem hexDigit_ne_newline (n : Nat) : hexDigit n ≠ '\n' := by
  have hall : ∀ c ∈ "0123456789abcdef".data, c ≠ '\n' := by decide
  rcases getD_mem_or "0123456789abcdef".data n '0' with hm | hd
  · exact hall _ hm
  · rw [hexDigit, hd]; decide

theorem escape_no_newline (c : Char) : '\n' ∉ jsonEscapeChar c := by
  unfold jsonEscapeChar
  split_ifs <;>
    first
      | decide
      | (intro hm
         simp only [List.mem_cons, List.not_mem_nil, or_false] at hm
         rcases hm with e | e | e | e | e | e <;>
           first
             | exact absurd e.symm (by decide)
             | exact absurd e.symm (hexDigit_ne_newline _))
      | (intro hm
         simp only [List.mem_cons, List.not_mem_nil, or_false] at hm
         rename_i h1 h2 h3 h4 h5 h6 h7 h8
         exact h3 hm.symm)

theorem jsonStr_no_newline (s : String) : '\n' ∉ (jsonStr s).data := by
  intro hm
  simp only [jsonStr, List.mem_cons, List.mem_append] at hm
  rcases hm with e | hm | e
  · exact absurd e (by decide)
  · obtain ⟨c, _, hc⟩ := List.mem_flatMap.mp hm
    exact escape_no_newline c hc
  · exact absurd e (by decide)

theorem dumpsRecord_no_newline (r : Sample) : '\n' ∉ (dumpsRecord r).data := by
  intro hm
  simp only [dumpsRecord, String.data_append] at hm
  simp only [List.mem_append] at hm
  rcases hm with ((((((hm | hm) | hm) | hm) | hm) | hm) | hm) <;>
    first
      | exact absurd hm (by decide)
      | exact jsonStr_no_newline _ hm

theorem splitNl_append (rest : List Char) :
    ∀ xs : List Char, '\n' ∉ xs → splitNl (xs ++ '\n' :: rest) = xs :: splitNl rest := by
  intro xs
  induction xs with
  | nil => intro _; simp [splitNl]
  | cons c cs ih =>
    intro hx
    have hc : ¬c = '\n' := fun e => hx (e ▸ List.mem_cons_self _ _)
    have hcs : '\n' ∉ cs := fun m => hx (List.mem_cons_of_mem _ m)
    simp only [List.cons_append, splitNl, if_neg hc, List.append_eq, ih hcs]

theorem persist_split (ds : List Sample) :
    splitNl ((persist ds).1).data = ds.map (fun r => (dumpsRecord r).data) := by
  induction ds with
  | nil => rfl
  | cons r rest ih =>
    have hdata : ((persist (r :: rest)).1).data =
        (dumpsRecord r).data ++ '\n' :: ((persist rest).1).data := by
      simp only [persist, List.map_cons, joinAll, String.data_append, List.append_assoc]
      rfl
    rw [hdata, splitNl_append _ _ (dumpsRecord_no_newline r), ih]
    rfl

/-! ### Concrete facts about the catalog and the templates -/

theorem format_ne_empty : ∀ t ∈ TEMPLATES, ∀ p ∈ AGENTS, ∀ i ∈ p.2,
    pyFormat t i ≠ "" ∧ lowerStr (pyFormat t i) ≠ "" := by decide

theorem intent_in_input : ∀ t ∈ TEMPLATES, ∀ p ∈ AGENTS, ∀ i ∈ p.2,
    containsSub i.data (pyFormat t i).data = true ∧
    containsSub i.data (lowerStr (pyFormat t i)).data = true := by decide

theorem countSum_eval : ∀ p ∈ AGENTS, ∀ i ∈ p.2,
    ((AGENTS.map (fun q =>
      if p.1 = q.1 then SAMPLES_PER_INTENT * q.2.countP (fun j => i = j) else 0)).sum
      = SAMPLES_PER_INTENT) := by decide

theorem agents_sum_eval :
    ((AGENTS.map (fun p => p.2.length * SAMPLES_PER_INTENT)).sum) = 800 := by decide

/-! ### The claims -/

/-- C1: every record in the dataset produced by the full generation pass has
an `output.target` that is a key of the agent catalog, and the intent phrase
named after "Matched intent: " in its `output.reason` belongs to that
agent's intent list. -/
theorem C1_target_and_intent_in_catalog (nats : Nat → Nat) (floats : Nat → ℚ)
    (ds : List Sample) (st' : PState)
    (h : mainRun (initState nats floats) = some (ds, st')) :
    ∀ r ∈ ds, ∃ il, AGENTS.lookup r.output.target = some il ∧
      ∃ i ∈ il, r.output.reason = "Matched intent: " ++ i := by
  obtain ⟨acc, st₁, h₁, -, -, -, -, -, mem, -⟩ :=
    agentLoop_spec AGENTS (initState nats floats) rfl
  rw [mainRun_eq nats floats h₁] at h
  have hds : ds = (pyShuffle acc st₁).1 := (congrArg Prod.fst (Option.some.inj h)).symm
  subst hds
  intro r hr
  obtain ⟨p, hp, i, hi, -, hout, -⟩ := mem r ((pyShuffle_perm acc st₁).mem_iff.mp hr)
  refine ⟨p.2, ?_, i, hi, ?_⟩
  · rw [hout]
    exact lookup_AGENTS p.1 p.2 hp
  · rw [hout]

theorem C1_target_and_intent_in_catalog_witness :
    ∃ ds st', mainRun (initState (fun _ => 0) (fun _ => 1)) = some (ds, st') ∧
      ∀ r ∈ ds, ∃ il, AGENTS.lookup r.output.target = some il ∧
        ∃ i ∈ il, r.output.reason = "Matched intent: " ++ i := by
  obtain ⟨acc, st₁, h₁, -, -, -, -, -, -, -⟩ :=
    agentLoop_spec AGENTS (initState (fun _ => 0) (fun _ => 1)) rfl
  exact ⟨_, _, mainRun_eq _ _ h₁,
    C1_target_and_intent_in_catalog _ _ _ _ (mainRun_eq _ _ h₁)⟩

/-- C2: the generated dataset's length is the sum over catalog agents of
(number of intents) x `SAMPLES_PER_INTENT`; with the default catalog this
is exactly 800. -/
theorem C2_dataset_length (nats : Nat → Nat) (floats : Nat → ℚ)
    (ds : List Sample) (st' : PState)
    (h : mainRun (initState nats floats) = some (ds, st')) :
    ds.length = ((AGENTS.map (fun p => p.2.length * SAMPLES_PER_INTENT)).sum) ∧
    ds.length = 800 := by
  obtain ⟨acc, st₁, h₁, -, -, -, -, hlen, -, -⟩ :=
    agentLoop_spec AGENTS (initState nats floats) rfl
  rw [mainRun_eq nats floats h₁] at h
  have hds : ds = (pyShuffle acc st₁).1 := (congrArg Prod.fst (Option.some.inj h)).symm
  subst hds
  have hl := (pyShuffle_perm acc st₁).length_eq
  exact ⟨by rw [hl, hlen], by rw [hl, hlen, agents_sum_eval]⟩

theorem C2_dataset_length_witness :
    ∃ ds st', mainRun (initState (fun _ => 0) (fun _ => 1)) = some (ds, st') ∧
      ds.length = ((AGENTS.map (fun p => p.2.length * SAMPLES_PER_INTENT)).sum) ∧
      ds.length = 800 := by
  obtain ⟨acc, st₁, h₁, -, -, -, -, -, -, -⟩ :=
    agentLoop_spec AGENTS (initState (fun _ => 0) (fun _ => 1)) rfl
  exact ⟨_, _, mainRun_eq _ _ h₁, C2_dataset_length _ _ _ _ (mainRun_eq _ _ h₁)⟩

/-- C3: for every catalog (agent, intent) pair, `generate_sample` returns a
record whose input is non-empty and is some template with the placeholder
replaced by the intent, lowercased exactly when the uniform draw is below
0.1, and whose output holds `target = agent`, `confidence = 1.0`,
`reason = "Matched intent: " ++ intent`. -/
theorem C3_generate_sample_record (a : String) (il : List String) (i : String) (st : PState)
    (ha : (a, il) ∈ AGENTS) (hi : i ∈ il) (ht : st.templates = TEMPLATES) :
    ∃ r st₂, generate_sample a i st = some (r, st₂) ∧
      r.input ≠ "" ∧
      (∃ t ∈ TEMPLATES, r.input =
        if st.floats (st.pos + 1) < 1/10 then lowerStr (pyFormat t i) else pyFormat t i) ∧
      r.output = { target := a, confidence := 1, reason := "Matched intent: " ++ i } := by
  have hmem : TEMPLATES.get ⟨st.nats st.pos % 5, Nat.mod_lt _ (by decide)⟩ ∈ TEMPLATES :=
    List.get_mem _ _ _
  have hne := format_ne_empty _ hmem (a, il) ha i hi
  refine ⟨_, _, generate_sample_spec a i st ht, ?_, ⟨_, hmem, rfl⟩, rfl⟩
  by_cases hq : st.floats (st.pos + 1) < 1/10
  · simpa only [if_pos hq] using hne.2
  · simpa only [if_neg hq] using hne.1

theorem C3_generate_sample_record_witness :
    ∃ r st₂,
      generate_sample "agent_hr" "payroll issue" (initState (fun _ => 0) (fun _ => 1)) =
        some (r, st₂) ∧
      r.input ≠ "" ∧
      (∃ t ∈ TEMPLATES, r.input =
        if (initState (fun _ => 0) (fun _ => 1)).floats
            ((initState (fun _ => 0) (fun _ => 1)).pos + 1) < 1/10 then
          lowerStr (pyFormat t "payroll issue")
        else pyFormat t "payroll issue") ∧
      r.output = { target := "agent_hr", confidence := 1,
                   reason := "Matched intent: " ++ "payroll issue" } :=
  C3_generate_sample_record "agent_hr"
    ["payroll issue", "holiday request", "benefits question", "onboarding"]
    "payroll issue" (initState (fun _ => 0) (fun _ => 1)) (by decide) (by decide) rfl

/-- C4: the shuffled dataset is a permutation of the sequence accumulated in
catalog order; as a multiset it holds exactly `SAMPLES_PER_INTENT` records
for each catalog (agent, intent) pair and, the total being 800, no others. -/
theorem C4_permutation_and_counts (nats : Nat → Nat) (floats : Nat → ℚ)
    (ds : List Sample) (st' : PState)
    (h : mainRun (initState nats floats) = some (ds, st')) :
    ∃ acc st₁, agentLoop AGENTS (initState nats floats) = some (acc, st₁) ∧
      ds.Perm acc ∧
      (∀ p ∈ AGENTS, ∀ i ∈ p.2, ds.countP (matchPair p.1 i) = SAMPLES_PER_INTENT) ∧
      ds.length = 800 := by
  obtain ⟨acc, st₁, h₁, -, -, -, -, hlen, -, hcnt⟩ :=
    agentLoop_spec AGENTS (initState nats floats) rfl
  rw [mainRun_eq nats floats h₁] at h
  have hds : ds = (pyShuffle acc st₁).1 := (congrArg Prod.fst (Option.some.inj h)).symm
  subst hds
  have hperm := pyShuffle_perm acc st₁
  refine ⟨acc, st₁, h₁, hperm, ?_, by rw [hperm.length_eq, hlen, agents_sum_eval]⟩
  intro p hp i hi
  rw [hperm.countP_eq (matchPair p.1 i), hcnt p.1 i]
  exact countSum_eval p hp i hi

theorem C4_permutation_and_counts_witness :
    ∃ ds st', mainRun (initState (fun _ => 0) (fun _ => 1)) = some (ds, st') ∧
      ∃ acc st₁, agentLoop AGENTS (initState (fun _ => 0) (fun _ => 1)) = some (acc, st₁) ∧
        ds.Perm acc ∧
        (∀ p ∈ AGENTS, ∀ i ∈ p.2, ds.countP (matchPair p.1 i) = SAMPLES_PER_INTENT) ∧
        ds.length = 800 := by
  obtain ⟨acc, st₁, h₁, -, -, -, -, -, -, -⟩ :=
    agentLoop_spec AGENTS (initState (fun _ => 0) (fun _ => 1)) rfl
  exact ⟨_, _, mainRun_eq _ _ h₁,
    C4_permutation_and_counts _ _ _ _ (mainRun_eq _ _ h₁)⟩

/-- C5: generation is a deterministic function of the random source (and
the fixed catalog, templates and sample count): identical draw sequences
give identical results. -/
theorem C5_deterministic (n₁ n₂ : Nat → Nat) (f₁ f₂ : Nat → ℚ)
    (hn : ∀ k, n₁ k = n₂ k) (hf : ∀ k, f₁ k = f₂ k) :
    mainRun (initState n₁ f₁) = mainRun (initState n₂ f₂) := by
  rw [funext hn, funext hf]

theorem C5_deterministic_witness :
    mainRun (initState (fun _ => 3) (fun _ => 0)) =
      mainRun (initState (fun _ => 3) (fun _ => 0)) :=
  C5_deterministic (fun _ => 3) (fun _ => 3) (fun _ => 0) (fun _ => 0)
    (fun _ => rfl) (fun _ => rfl)

/-- C6: within the embedded behaviour no failure is reachable:
`generate_sample` succeeds for all arguments once the template global holds
its initial (non-empty) value, and the full generation pass always returns
a dataset. (The one failure mode outside the embedding is an I/O error on
the file write.) -/
theorem C6_no_reachable_error :
    (∀ (a i : String) (st : PState), st.templates = TEMPLATES →
      ∃ r st₂, generate_sample a i st = some (r, st₂)) ∧
    (∀ (nats : Nat → Nat) (floats : Nat → ℚ),
      ∃ ds st', mainRun (initState nats floats) = some (ds, st')) := by
  constructor
  · intro a i st ht
    exact ⟨_, _, generate_sample_spec a i st ht⟩
  · intro nats floats
    obtain ⟨acc, st₁, h₁, -, -, -, -, -, -, -⟩ :=
      agentLoop_spec AGENTS (initState nats floats) rfl
    exact ⟨_, _, mainRun_eq nats floats h₁⟩

theorem C6_no_reachable_error_witness :
    (∃ r st₂, generate_sample "agent_data" "snowflake"
      (initState (fun _ => 4) (fun _ => 0)) = some (r, st₂)) ∧
    (∃ ds st', mainRun (initState (fun _ => 4) (fun _ => 0)) = some (ds, st')) :=
  ⟨C6_no_reachable_error.1 "agent_data" "snowflake" (initState (fun _ => 4) (fun _ => 0)) rfl,
   C6_no_reachable_error.2 (fun _ => 4) (fun _ => 0)⟩

/-- C7: with agent "agent_it", intent "vpn access", the template
"Who handles {intent}?" selected and no lowercase flip, `generate_sample`
returns input "Who handles vpn access?" and output with target "agent_it",
confidence 1.0 and reason "Matched intent: vpn access". -/
theorem C7_example_scenario (st : PState) (ht : st.templates = TEMPLATES)
    (hc : st.nats st.pos % 5 = 2) (hq : ¬ st.floats (st.pos + 1) < 1/10) :
    generate_sample "agent_it" "vpn access" st = some
      ({ instruction := INSTRUCTION,
         input := "Who handles vpn access?",
         output := { target := "agent_it", confidence := 1,
                     reason := "Matched intent: vpn access" } },
       { st with pos := st.pos + 2 }) := by
  rw [generate_sample_spec "agent_it" "vpn access" st ht]
  simp only [hc, if_neg hq]
  rfl

theorem C7_example_scenario_witness :
    generate_sample "agent_it" "vpn access" (initState (fun _ => 2) (fun _ => 1)) = some
      ({ instruction := INSTRUCTION,
         input := "Who handles vpn access?",
         output := { target := "agent_it", confidence := 1,
                     reason := "Matched intent: vpn access" } },
       { initState (fun _ => 2) (fun _ => 1) with
           pos := (initState (fun _ => 2) (fun _ => 1)).pos + 2 }) :=
  C7_example_scenario (initState (fun _ => 2) (fun _ => 1)) rfl (by decide)
    (by norm_num [initState])

/-- C8: persisting writes exactly one JSON line per record, in the
dataset's current order, and the reported count equals the number of lines
written, which equals the dataset's length. -/
theorem C8_persist_lines (ds : List Sample) :
    splitNl ((persist ds).1).data = ds.map (fun r => (dumpsRecord r).data) ∧
    (persist ds).2 = (ds.map (fun r => (dumpsRecord r).data)).length ∧
    (persist ds).2 = ds.length :=
  ⟨persist_split ds, by simp [persist], rfl⟩

/-- C9: neither `generate_sample` nor the full generation pass mutates the
agent catalog or the template set: the globals carried by the state are
returned unchanged (equal to their initial literals after a full run). -/
theorem C9_globals_unchanged :
    (∀ (a i : String) (st : PState) (r : Sample) (st₂ : PState),
      generate_sample a i st = some (r, st₂) →
        st₂.agents = st.agents ∧ st₂.templates = st.templates) ∧
    (∀ (nats : Nat → Nat) (floats : Nat → ℚ) (ds : List Sample) (st' : PState),
      mainRun (initState nats floats) = some (ds, st') →
        st'.agents = AGENTS ∧ st'.templates = TEMPLATES) := by
  constructor
  · intro a i st r st₂ h
    obtain ⟨ag, tp, nt, fl, p⟩ := st
    cases tp with
    | nil => simp [generate_sample] at h
    | cons t₀ ts =>
      simp only [generate_sample, nextNat, nextFloat, Option.some.injEq, Prod.mk.injEq] at h
      obtain ⟨-, h₂⟩ := h
      subst h₂
      exact ⟨rfl, rfl⟩
  · intro nats floats ds st' h
    obtain ⟨acc, st₁, h₁, a₁, t₁, -, -, -, -, -⟩ :=
      agentLoop_spec AGENTS (initState nats floats) rfl
    rw [mainRun_eq nats floats h₁] at h
    have hst : st' = (pyShuffle acc st₁).2 := (congrArg Prod.snd (Option.some.inj h)).symm
    subst hst
    have he := shuffleAux_env (acc.length - 1) acc st₁
    exact ⟨he.1.trans a₁, he.2.trans t₁⟩

theorem C9_globals_unchanged_witness :
    (∃ r st₂, generate_sample "agent_hr" "payroll issue"
        (initState (fun _ => 0) (fun _ => 1)) = some (r, st₂) ∧
      st₂.agents = (initState (fun _ => 0) (fun _ => 1)).agents ∧
      st₂.templates = (initState (fun _ => 0) (fun _ => 1)).templates) ∧
    (∃ ds st', mainRun (initState (fun _ => 0) (fun _ => 1)) = some (ds, st') ∧
      st'.agents = AGENTS ∧ st'.templates = TEMPLATES) := by
  constructor
  · refine ⟨_, _, generate_sample_spec "agent_hr" "payroll issue" _ rfl, ?_⟩
    exact C9_globals_unchanged.1 "agent_hr" "payroll issue" _ _ _
      (generate_sample_spec "agent_hr" "payroll issue" _ rfl)
  · obtain ⟨acc, st₁, h₁, -, -, -, -, -, -, -⟩ :=
      agentLoop_spec AGENTS (initState (fun _ => 0) (fun _ => 1)) rfl
    exact ⟨_, _, mainRun_eq _ _ h₁, C9_globals_unchanged.2 _ _ _ _ (mainRun_eq _ _ h₁)⟩

/-- C10: in every generated record the intent phrase named in
`output.reason` occurs as a contiguous substring of `input`, with or
without the lowercase flip. -/
theorem C10_intent_substring_of_input (nats : Nat → Nat) (floats : Nat → ℚ)
    (ds : List Sample) (st' : PState)
    (h : mainRun (initState nats floats) = some (ds, st')) :
    ∀ r ∈ ds, ∃ i, r.output.reason = "Matched intent: " ++ i ∧
      containsSub i.data r.input.data = true := by
  obtain ⟨acc, st₁, h₁, -, -, -, -, -, mem, -⟩ :=
    agentLoop_spec AGENTS (initState nats floats) rfl
  rw [mainRun_eq nats floats h₁] at h
  have hds : ds = (pyShuffle acc st₁).1 := (congrArg Prod.fst (Option.some.inj h)).symm
  subst hds
  intro r hr
  obtain ⟨p, hp, i, hi, -, hout, t, htm, hin⟩ := mem r ((pyShuffle_perm acc st₁).mem_iff.mp hr)
  refine ⟨i, by rw [hout], ?_⟩
  have hc := intent_in_input t htm p hp i hi
  rcases hin with hin | hin
  · rw [hin]; exact hc.1
  · rw [hin]; exact hc.2

theorem C10_intent_substring_of_input_witness :
    ∃ ds st', mainRun (initState (fun _ => 0) (fun _ => 1)) = some (ds, st') ∧
      ∀ r ∈ ds, ∃ i, r.output.reason = "Matched intent: " ++ i ∧
        containsSub i.data r.input.data = true := by
  obtain ⟨acc, st₁, h₁, -, -, -, -, -, -, -⟩ :=
    agentLoop_spec AGENTS (initState (fun _ => 0) (fun _ => 1)) rfl
  exact ⟨_, _, mainRun_eq _ _ h₁,
    C10_intent_substring_of_input _ _ _ _ (mainRun_eq _ _ h₁)⟩
